import Mathlib

/-!
Verification of `lbrytools/funcs.py` (package `lbrytools`).

The file embeds the four helper functions of `funcs.py` as pure Lean
functions.  Side effects (messages printed to the terminal, invocations of
the daemon launcher `start_lbry`, file writes) are made explicit in the
return values; external behaviour (the HTTP probe outcome, the result of
`open`, the current time, the emoji reference dataset) is passed in as a
parameter.
-/

namespace Lbrytools

/-! ## JSON values

`check_lbry` inspects the JSON reply of the daemon.  A JSON object is an
association list of fields; a JSON document parsed from the wire has
unique keys in each object. -/

inductive Json where
  | null : Json
  | bool (b : Bool) : Json
  | num (n : Int) : Json
  | str (s : String) : Json
  | arr (xs : List Json) : Json
  | obj (fields : List (String × Json)) : Json

/-- Python truthiness of a JSON-decoded value (`bool(x)`). -/
def jsonTruthy : Json → Bool
  | .null => false
  | .bool b => b
  | .num n => n != 0
  | .str s => s != ""
  | .arr xs => !xs.isEmpty
  | .obj fs => !fs.isEmpty

/-- `key in x` for a 1-word string key and a JSON-decoded value `x`:
key membership for a dict, element equality for a list, substring test for
a string (a key without repeated words is a substring iff it is an
element-wise factor, which for our fixed keys reduces to equality of some
window; we model the general substring test), and a `TypeError` (`none`)
for the scalar types. -/
def charsLeadEq : List Char → List Char → Bool
  | [], _ => true
  | _ :: _, [] => false
  | a :: as, b :: bs => a == b && charsLeadEq as bs

def charsSubstring (pat : List Char) : List Char → Bool
  | [] => charsLeadEq pat []
  | c :: cs => charsLeadEq pat (c :: cs) || charsSubstring pat cs

def jsonMember (key : String) : Json → Option Bool
  | .obj fields => some (fields.any fun p => p.1 == key)
  | .arr xs => some (xs.any fun v => match v with | .str s => s == key | _ => false)
  | .str s => some (charsSubstring key.data s.data)
  | _ => none

/-- `x[key]` for a JSON-decoded value: dict lookup (`none` models the
`TypeError`/`KeyError` raised for non-dicts or a missing key). -/
def jsonGet (key : String) : Json → Option Json
  | .obj fields => (fields.find? fun p => p.1 == key).map (·.2)
  | _ => none

/-- Lookup of a field in a JSON object given as an association list. -/
def findField (key : String) (output : List (String × Json)) : Option Json :=
  (output.find? fun p => p.1 == key).map (·.2)

/-! ## DaemonProbe: `check_lbry`

The outcome of `requests.post(server, json={"method": "status"}).json()`
is external: either a `requests.exceptions.ConnectionError` or a decoded
JSON-RPC reply, which is a JSON object. -/

inductive ProbeOutcome where
  | connError (err : String) : ProbeOutcome
  | reply (output : List (String × Json)) : ProbeOutcome

/-- The observable behaviour of one `check_lbry` call: its return value,
the messages printed, and the number of times `start_lbry` ran. -/
structure CheckResult where
  ret : Bool
  printed : List String
  startCalls : Nat
deriving DecidableEq, Repr

/-- Embedding of `check_lbry` (funcs.py lines 74-92).  `none` models an
uncaught exception (a `TypeError` from `in`/`[]` on a scalar `result`).

```
try:    output = requests.post(server, json=msg).json()
except requests.exceptions.ConnectionError as err:
    print(err); start_lbry(); return False
if "result" not in output:
    print(">>> No 'result' in the JSON-RPC server output")
    start_lbry(); return False
if "is_running" in output["result"] and output["result"]["is_running"]:
    return True
start_lbry(); return False
``` -/
def check_lbry (probe : ProbeOutcome) : Option CheckResult :=
  match probe with
  | .connError err => some ⟨false, [err], 1⟩
  | .reply output =>
    match findField "result" output with
    | none => some ⟨false, [">>> No 'result' in the JSON-RPC server output"], 1⟩
    | some result =>
      match jsonMember "is_running" result with
      | none => none
      | some false => some ⟨false, [], 1⟩
      | some true =>
        match jsonGet "is_running" result with
        | none => none
        | some v =>
          if jsonTruthy v then some ⟨true, [], 0⟩ else some ⟨false, [], 1⟩

end Lbrytools

namespace Lbrytools

/-- C1: a reply whose `result` object maps `is_running` to `true` makes
`check_lbry` return `True`, print nothing, and never call `start_lbry`. -/
theorem check_lbry_running (output : List (String × Json))
    (fs : List (String × Json))
    (hres : findField "result" output = some (Json.obj fs))
    (hrun : findField "is_running" fs = some (Json.bool true)) :
    check_lbry (.reply output) = some ⟨true, [], 0⟩ := by
  have hmem : jsonMember "is_running" (Json.obj fs) = some true := by
    simp only [jsonMember, Option.some.injEq]
    rcases h : fs.find? fun p => p.1 == "is_running" with _ | p
    · simp [findField, h] at hrun
    · exact List.any_eq_true.mpr ⟨p, List.mem_of_find?_eq_some h,
        by simpa using List.find?_some h⟩
  have hget : jsonGet "is_running" (Json.obj fs) = some (Json.bool true) := hrun
  simp only [check_lbry, hres, hmem, hget, jsonTruthy, if_true]

theorem check_lbry_running_witness :
    check_lbry (.reply [("result", Json.obj [("is_running", Json.bool true)])])
      = some ⟨true, [], 0⟩ :=
  check_lbry_running _ [("is_running", Json.bool true)] rfl rfl

/-- C2: a reply with no `result` field makes `check_lbry` print the
diagnostic, call `start_lbry` exactly once, and return `False`. -/
theorem check_lbry_no_result (output : List (String × Json))
    (h : findField "result" output = none) :
    check_lbry (.reply output)
      = some ⟨false, [">>> No 'result' in the JSON-RPC server output"], 1⟩ := by
  simp only [check_lbry, h]

theorem check_lbry_no_result_witness :
    check_lbry (.reply [("jsonrpc", Json.str "2.0")])
      = some ⟨false, [">>> No 'result' in the JSON-RPC server output"], 1⟩ :=
  check_lbry_no_result _ rfl

/-- C3: a connection failure makes `check_lbry` print the error, call
`start_lbry` exactly once, and return `False`. -/
theorem check_lbry_conn_error (err : String) :
    check_lbry (.connError err) = some ⟨false, [err], 1⟩ := rfl

/-! ## OutputWriter: `print_content`

`os.path.dirname`, `os.path.basename` and `os.path.join` follow the CPython
`posixpath` implementation:
```
def dirname(p):  i = p.rfind('/') + 1; head = p[:i]
                 if head and head != '/'*len(head): head = head.rstrip('/')
                 return head
def basename(p): return p[p.rfind('/') + 1:]
def join(a, b):  if b.startswith('/'): return b
                 if a == '' or a.endswith('/'): return a + b
                 return a + '/' + b
```
-/

/-- Split a character list at the position right after its last `/`:
the result is `(p[:i], p[i:])` with `i = p.rfind('/') + 1`. -/
def splitAtLastSlash : List Char → List Char × List Char
  | [] => ([], [])
  | c :: cs =>
    if cs.contains '/' then
      ((splitAtLastSlash cs).1.cons c, (splitAtLastSlash cs).2)
    else if c = '/' then ([c], cs)
    else ([], c :: cs)

def rstripSlash (cs : List Char) : List Char :=
  (cs.reverse.dropWhile (· == '/')).reverse

def dirname (p : String) : String :=
  let head := (splitAtLastSlash p.data).1
  if head ≠ [] ∧ ¬ head.all (· == '/') then ⟨rstripSlash head⟩ else ⟨head⟩

def basename (p : String) : String :=
  ⟨(splitAtLastSlash p.data).2⟩

def joinPath (a b : String) : String :=
  if b.startsWith "/" then b
  else if a = "" ∨ a.endsWith "/" then a ++ b
  else a ++ "/" ++ b

/-- The outcome of `open(path, "w")`: a usable file descriptor, or a
`FileNotFoundError`/`PermissionError` carrying a message. -/
inductive OpenResult where
  | ok : OpenResult
  | failed (err : String) : OpenResult

/-- Observable behaviour of one `print_content` call: the argument of each
`print` to standard output in order, the `(path, text)` pairs printed to a
file, and the returned string. -/
structure PrintResult where
  stdout : List String
  fileWrites : List (String × String)
  ret : String
deriving DecidableEq, Repr

/-- The path `print_content` opens for a given `file` argument:
`os.path.join(dirn, fdate + base)` with the `YYYYMMDD_HHMM_` prefix when
`fdate` is truthy (`now` is the `time.strftime` output). -/
def targetPath (file : String) (fdate : Bool) (now : String) : String :=
  joinPath (dirname file) ((if fdate then now ++ "_" else "") ++ basename file)

/-- Embedding of `print_content` (funcs.py lines 115-144).  `openF` is the
environment: what `open(path, "w")` yields.  `file = none` is Python
`file=None`; `some ""` is likewise falsy in `if file:`.  `fd` starts at `0`
and stays `0` when `open` fails, so `if file and fd:` then falls through to
the terminal `print(content)`. -/
def print_content (openF : String → OpenResult) (now : String)
    (output_list : List String) (file : Option String) (fdate : Bool) :
    PrintResult :=
  let content := String.intercalate "\n" output_list
  match file with
  | none => ⟨[content], [], content⟩
  | some f =>
    if f = "" then ⟨[content], [], content⟩
    else
      let path := targetPath f fdate now
      match openF path with
      | .ok => ⟨["Summary written: " ++ path], [(path, content)], content⟩
      | .failed err =>
        ⟨["Cannot open file for writing; " ++ err, content], [], content⟩

/-- C4: for every non-empty line sequence the returned string is the lines
joined with newlines, whatever the destination outcome (no file, open
succeeded, open failed). -/
theorem print_content_ret (openF : String → OpenResult) (now : String)
    (output_list : List String) (file : Option String) (fdate : Bool)
    (_hne : output_list ≠ []) :
    (print_content openF now output_list file fdate).ret
      = String.intercalate "\n" output_list := by
  rcases file with _ | f
  · rfl
  · simp only [print_content]
    split
    · rfl
    · split <;> rfl

theorem print_content_ret_witness :
    (["a", "b"] : List String) ≠ [] ∧
      (print_content (fun _ => .ok) "20260101_0000" ["a", "b"] none false).ret
        = String.intercalate "\n" ["a", "b"] :=
  ⟨by decide, print_content_ret _ _ _ _ _ (by decide)⟩

/-- C5: when the open of the target path fails, `print_content` prints the
error message followed by the joined content on standard output, writes
nothing to a file, and still returns the content. -/
theorem print_content_open_failed (openF : String → OpenResult) (now : String)
    (output_list : List String) (f : String) (fdate : Bool) (err : String)
    (hf : f ≠ "")
    (hopen : openF (targetPath f fdate now) = .failed err) :
    print_content openF now output_list (some f) fdate
      = ⟨["Cannot open file for writing; " ++ err,
          String.intercalate "\n" output_list], [],
         String.intercalate "\n" output_list⟩ := by
  simp only [print_content, if_neg hf, hopen]

theorem print_content_open_failed_witness :
    ("out/sum.txt" : String) ≠ "" ∧
      print_content (fun _ => .failed "No such file or directory")
          "20260101_0000" ["x"] (some "out/sum.txt") false
        = ⟨["Cannot open file for writing; No such file or directory", "x"],
           [], "x"⟩ :=
  ⟨by decide,
    print_content_open_failed _ _ ["x"] "out/sum.txt" false _ (by decide) rfl⟩

/-! ## NameSanitizer: `sanitize_name`

The emoji reference dataset `emoji.UNICODE_EMOJI['en']` is an optional
external package; its set of single-code-point keys is passed in as
`emojiSet`, together with the module-level `EMOJI_LOADED` flag.  When the
package is missing the code sets `emoji_dict = ""`, and `character in ""`
is `False` for every character. -/

/-- Matches `regex.findall(u'[\U0001F1E6-\U0001F1FF]', text)`: the
regional-indicator range. -/
def isRegionalIndicator (c : Char) : Bool :=
  0x1F1E6 ≤ c.toNat && c.toNat ≤ 0x1F1FF

/-- `flags`, the list of regional-indicator characters found in `text`,
in order of occurrence. -/
def flagsOf (text : String) : List Char :=
  text.data.filter isRegionalIndicator

/-- U+275A, the monospace black box the code substitutes. -/
def placeholder : Char := Char.ofNat 0x275A

/-- Embedding of `sanitize_name` (funcs.py lines 147-177): each character
that is a key of the emoji dataset (when loaded) or occurs in `flags` is
replaced by U+275A, every other character is appended unchanged. -/
def sanitize_name (emojiLoaded : Bool) (emojiSet : Char → Bool)
    (text : String) : String :=
  ⟨text.data.map fun character =>
    if (emojiLoaded && emojiSet character)
        || (flagsOf text).contains character then
      placeholder
    else character⟩

theorem flagsOf_contains (text : String) (c : Char) :
    (flagsOf text).contains c = true ↔
      c ∈ text.data ∧ isRegionalIndicator c = true := by
  simp only [flagsOf, List.contains_eq_any_beq, List.any_eq_true,
    List.mem_filter, beq_iff_eq]
  constructor
  · rintro ⟨x, ⟨hx, hri⟩, rfl⟩; exact ⟨hx, hri⟩
  · rintro ⟨hx, hri⟩; exact ⟨c, ⟨hx, hri⟩, rfl⟩

theorem list_map_eq_self {α : Type} (l : List α) (f : α → α)
    (h : ∀ x ∈ l, f x = x) : l.map f = l := by
  induction l with
  | nil => rfl
  | cons a as ih =>
    simp only [List.map_cons, h a (List.mem_cons_self a as)]
    exact congrArg _ (ih fun x hx => h x (List.mem_cons_of_mem a hx))

/-- Characters of the sanitized string: each is either the placeholder or
an original character on which the substitution condition was false. -/
theorem sanitize_name_mem (emojiLoaded : Bool) (emojiSet : Char → Bool)
    (text : String) (c : Char)
    (hc : c ∈ (sanitize_name emojiLoaded emojiSet text).data) :
    c = placeholder ∨
      (c ∈ text.data ∧ (emojiLoaded && emojiSet c) = false ∧
        isRegionalIndicator c = false) := by
  simp only [sanitize_name, List.mem_map] at hc
  obtain ⟨a, ha, hfa⟩ := hc
  by_cases hcond :
      ((emojiLoaded && emojiSet a) || (flagsOf text).contains a) = true
  · rw [if_pos hcond] at hfa
    exact Or.inl hfa.symm
  · rw [if_neg hcond] at hfa
    subst hfa
    rw [Bool.not_eq_true, Bool.or_eq_false_iff] at hcond
    refine Or.inr ⟨ha, hcond.1, ?_⟩
    by_contra hri
    rw [Bool.not_eq_false] at hri
    have := (flagsOf_contains text a).mpr ⟨ha, hri⟩
    rw [this] at hcond
    exact absurd hcond.2 (by simp)

/-- Shared helper: a string on which the substitution condition is false
character-wise is a fixed point of `sanitize_name`. -/
theorem sanitize_name_fixed (emojiLoaded : Bool) (emojiSet : Char → Bool)
    (text : String)
    (h : ∀ c ∈ text.data, (emojiLoaded && emojiSet c) = false ∧
          isRegionalIndicator c = false) :
    sanitize_name emojiLoaded emojiSet text = text := by
  have : text.data.map (fun character =>
      if (emojiLoaded && emojiSet character)
          || (flagsOf text).contains character then placeholder
      else character) = text.data := by
    apply list_map_eq_self
    intro c hc
    have hcd := h c hc
    have hfl : (flagsOf text).contains c = false := by
      rw [Bool.eq_false_iff]
      intro hcon
      exact absurd ((flagsOf_contains text c).mp hcon).2 (by simp [hcd.2])
    rw [if_neg]
    rw [hcd.1, hfl]
    exact Bool.false_ne_true
  show String.mk _ = text
  rw [this]

/-- C6: a string none of whose characters is in the emoji dataset or in
the regional-indicator range comes back unchanged; a string that is
exactly a two-code-point regional-indicator flag pair comes back as
exactly two placeholder characters. -/
theorem sanitize_name_plain_and_flag_pair (emojiLoaded : Bool)
    (emojiSet : Char → Bool) :
    (∀ text : String,
      (∀ c ∈ text.data, emojiSet c = false ∧ isRegionalIndicator c = false) →
      sanitize_name emojiLoaded emojiSet text = text)
    ∧ (∀ c₁ c₂ : Char, isRegionalIndicator c₁ = true →
        isRegionalIndicator c₂ = true →
        sanitize_name emojiLoaded emojiSet ⟨[c₁, c₂]⟩
          = ⟨[placeholder, placeholder]⟩) := by
  constructor
  · intro text h
    exact sanitize_name_fixed emojiLoaded emojiSet text fun c hc =>
      ⟨by simp [(h c hc).1], (h c hc).2⟩
  · intro c₁ c₂ h₁ h₂
    have m₁ : (flagsOf ⟨[c₁, c₂]⟩).contains c₁ = true :=
      (flagsOf_contains _ c₁).mpr ⟨by simp, h₁⟩
    have m₂ : (flagsOf ⟨[c₁, c₂]⟩).contains c₂ = true :=
      (flagsOf_contains _ c₂).mpr ⟨by simp, h₂⟩
    have e₁ : ((emojiLoaded && emojiSet c₁)
        || (flagsOf ⟨[c₁, c₂]⟩).contains c₁) = true := by
      rw [m₁, Bool.or_true]
    have e₂ : ((emojiLoaded && emojiSet c₂)
        || (flagsOf ⟨[c₁, c₂]⟩).contains c₂) = true := by
      rw [m₂, Bool.or_true]
    simp only [sanitize_name, List.map_cons, List.map_nil, if_pos e₁, if_pos e₂]

theorem sanitize_name_plain_and_flag_pair_witness :
    sanitize_name true (fun c => c == Char.ofNat 0x1F600) "lbry-video" = "lbry-video"
    ∧ sanitize_name true (fun c => c == Char.ofNat 0x1F600)
        ⟨[Char.ofNat 0x1F1FA, Char.ofNat 0x1F1F8]⟩ = ⟨[placeholder, placeholder]⟩ :=
  ⟨(sanitize_name_plain_and_flag_pair true _).1 "lbry-video" (by decide),
   (sanitize_name_plain_and_flag_pair true _).2 _ _ (by decide) (by decide)⟩

/-- C7: `sanitize_name` is idempotent whenever the placeholder U+275A is
not itself a key of the emoji dataset (it never is in the real dataset,
and it lies outside the regional-indicator range). -/
theorem sanitize_name_idem (emojiLoaded : Bool) (emojiSet : Char → Bool)
    (text : String) (hph : emojiSet placeholder = false) :
    sanitize_name emojiLoaded emojiSet (sanitize_name emojiLoaded emojiSet text)
      = sanitize_name emojiLoaded emojiSet text := by
  apply sanitize_name_fixed
  intro c hc
  rcases sanitize_name_mem emojiLoaded emojiSet text c hc with rfl | ⟨_, hcond, hf⟩
  · exact ⟨by simp [hph], by decide⟩
  · exact ⟨hcond, hf⟩

theorem sanitize_name_idem_witness :
    (fun c => c == Char.ofNat 0x1F600) placeholder = false ∧
      sanitize_name true (fun c => c == Char.ofNat 0x1F600)
          (sanitize_name true (fun c => c == Char.ofNat 0x1F600) "abc")
        = sanitize_name true (fun c => c == Char.ofNat 0x1F600) "abc" :=
  ⟨by decide, sanitize_name_idem true _ "abc" (by decide)⟩

/-- C8: with `EMOJI_LOADED = False` the emoji dictionary is the empty
string, so only the flag branch can fire: every character is replaced by
the placeholder exactly when it is a regional indicator, and passes
through unchanged otherwise. -/
theorem sanitize_name_no_dataset (emojiSet : Char → Bool) (text : String) :
    sanitize_name false emojiSet text
      = ⟨text.data.map fun c =>
          if isRegionalIndicator c then placeholder else c⟩ := by
  show String.mk _ = String.mk _
  refine congrArg String.mk (List.map_congr_left fun c hc => ?_)
  rcases hri : isRegionalIndicator c with _ | _
  · have hcon : (flagsOf text).contains c = false := by
      rw [Bool.eq_false_iff]
      intro hcon
      exact absurd ((flagsOf_contains text c).mp hcon).2 (by simp [hri])
    have e : ((false && emojiSet c) || (flagsOf text).contains c) = false := by
      rw [Bool.false_and, Bool.false_or]; exact hcon
    rw [if_neg (by rw [e]; decide), if_neg (by decide)]
  · have hcon : (flagsOf text).contains c = true :=
      (flagsOf_contains text c).mpr ⟨hc, hri⟩
    have e : ((false && emojiSet c) || (flagsOf text).contains c) = true := by
      rw [Bool.false_and, Bool.false_or]; exact hcon
    rw [if_pos e, if_pos rfl]

/-- C9: `sanitize_name` maps each code point to exactly one code point, so
the output always has exactly the length of the input. -/
theorem sanitize_name_length (emojiLoaded : Bool) (emojiSet : Char → Bool)
    (text : String) :
    (sanitize_name emojiLoaded emojiSet text).length = text.length := by
  show (text.data.map _).length = text.data.length
  exact List.length_map _ _

/-- C10: every regional-indicator character of the input, paired or not,
is replaced by the placeholder at its position; no pairing check is
made. -/
theorem sanitize_name_replaces_lone_flag (emojiLoaded : Bool)
    (emojiSet : Char → Bool) (text : String) (i : Nat) (c : Char)
    (hc : text.data[i]? = some c) (hri : isRegionalIndicator c = true) :
    (sanitize_name emojiLoaded emojiSet text).data[i]? = some placeholder := by
  have hmem : c ∈ text.data := by
    have := List.getElem?_eq_some.mp hc
    obtain ⟨h, rfl⟩ := this
    exact List.getElem_mem _
  have hcon : (flagsOf text).contains c = true :=
    (flagsOf_contains text c).mpr ⟨hmem, hri⟩
  have e : ((emojiLoaded && emojiSet c) || (flagsOf text).contains c) = true := by
    rw [hcon, Bool.or_true]
  show (text.data.map _)[i]? = _
  rw [List.getElem?_map, hc, Option.map_some', if_pos e]

theorem sanitize_name_replaces_lone_flag_witness :
    (String.mk [Char.ofNat 0x1F1FA]).data[0]? = some (Char.ofNat 0x1F1FA) ∧
      (sanitize_name false (fun _ => false)
          ⟨[Char.ofNat 0x1F1FA]⟩).data[0]? = some placeholder :=
  ⟨rfl, sanitize_name_replaces_lone_flag false _ ⟨[Char.ofNat 0x1F1FA]⟩ 0 _
    rfl (by decide)⟩

end Lbrytools
